import Mathlib

/-!
Verification of the adaptive-difficulty core of the gamify_v2 repository.

The definitions below are a shallow embedding of the Python sources:
`qlearning/engine.py` (QLearningEngine), `qlearning/policies.py`
(LevelTransitionPolicy, RetryPolicy), `quizzes/services.py` (QuizService)
and `accounts/models.py` (StudentProfile).  Machine floats are modelled by
exact rationals; the attempt history is a list of attempts ordered most
recent first, matching the `order_by('-created_at')` queries; the Q-table
is a partial map from (state hash, action) to a rational Q-value; the
random draws of the epsilon-greedy policy are explicit parameters.
-/

namespace Gamify

/-- Question difficulty, the action space of the Q-learning engine. -/
inductive Difficulty
  | easy
  | medium
  | hard
deriving DecidableEq, Repr

/-- User level, from `StudentProfile.LEVEL_CHOICES`. -/
inductive Level
  | beginner
  | intermediate
  | advanced
  | expert
deriving DecidableEq, Repr

/-- One row of `AttemptLog` restricted to the fields the policies read:
question difficulty and correctness.  Histories are lists of attempts,
most recent first. -/
structure Attempt where
  difficulty : Difficulty
  is_correct : Bool
deriving DecidableEq, Repr

/-- The attempts at a given difficulty, most recent first: the queryset
`AttemptLog.objects.filter(user=user, question__difficulty=difficulty)
.order_by('-created_at')`. -/
def attemptsAt (h : List Attempt) (d : Difficulty) : List Attempt :=
  h.filter (fun a => a.difficulty = d)

/-- `LevelTransitionPolicy.compute_window_stats`: (correct, total) over the
last `window` attempts at a difficulty. -/
def compute_window_stats (h : List Attempt) (d : Difficulty) (window : ℕ) : ℕ × ℕ :=
  let recent := (attemptsAt h d).take window
  (recent.countP (fun a => a.is_correct), recent.length)

/-- Result record of `LevelTransitionPolicy.get_consecutive_performance`. -/
structure ConsecutivePerformance where
  consecutive_correct : ℕ
  consecutive_wrong : ℕ
  total_checked : ℕ
  last_result : Option Bool
deriving DecidableEq, Repr

/-- The counting loop of `get_consecutive_performance`: walk the attempts
most recent first, extending whichever streak is still open and stopping
at the first flip. -/
def consecScan : List Attempt → ℕ → ℕ → ℕ × ℕ
  | [], cc, cw => (cc, cw)
  | a :: rest, cc, cw =>
    if a.is_correct then
      if cw = 0 then consecScan rest (cc + 1) cw else (cc, cw)
    else
      if cc = 0 then consecScan rest cc (cw + 1) else (cc, cw)

/-- `LevelTransitionPolicy.get_consecutive_performance(user, difficulty,
window)`. -/
def get_consecutive_performance (h : List Attempt) (d : Difficulty) (window : ℕ) :
    ConsecutivePerformance :=
  let attempts_list := (attemptsAt h d).take window
  match attempts_list with
  | [] => ⟨0, 0, 0, none⟩
  | a :: rest =>
    let p := consecScan (a :: rest) 0 0
    ⟨p.1, p.2, (a :: rest).length, some a.is_correct⟩

/-- `QLearningEngine.EPSILON_BY_LEVEL`. -/
def EPSILON_BY_LEVEL : Level → ℚ
  | .beginner => 1/4
  | .intermediate => 3/20
  | .advanced => 1/10
  | .expert => 1/20

/-- `QLearningEngine.ALLOWED_ACTIONS`, the level-constrained action space. -/
def ALLOWED_ACTIONS : Level → List Difficulty
  | .beginner => [.easy, .medium]
  | .intermediate => [.easy, .medium, .hard]
  | .advanced => [.medium, .hard]
  | .expert => [.hard]

/-- The loop body of `QLearningEngine.get_dynamic_epsilon` over the
`difficulty_stats` of `get_user_statistics`, whose insertion order is
easy, medium, hard.  The first difficulty with 3 or more consecutive
wrong halves epsilon; otherwise the first with 5 or more consecutive
correct scales it by 1.2 capped at 0.3; otherwise the scan goes on. -/
def epsilonScan (h : List Attempt) (base : ℚ) : List Difficulty → ℚ
  | [] => base
  | d :: rest =>
    let s := get_consecutive_performance h d 5
    if s.consecutive_wrong ≥ 3 then base * (1/2)
    else if s.consecutive_correct ≥ 5 then min (base * (6/5)) (3/10)
    else epsilonScan h base rest

/-- `QLearningEngine.get_dynamic_epsilon` on a user with the given level
and attempt history. -/
def get_dynamic_epsilon (level : Level) (h : List Attempt) : ℚ :=
  epsilonScan h (EPSILON_BY_LEVEL level) [.easy, .medium, .hard]

/-- The replacement set of the safety check in
`QLearningEngine.get_allowed_actions`: with 2 or more consecutive wrong
at the current difficulty, the allowed list is overwritten by this
difficulty-keyed set. -/
def safetyRestricted : Difficulty → List Difficulty
  | .easy => [.easy]
  | .medium => [.easy, .medium]
  | .hard => [.medium, .hard]

/-- `QLearningEngine.get_allowed_actions(user, current_difficulty)`. -/
def get_allowed_actions (level : Level) (h : List Attempt)
    (current_difficulty : Option Difficulty) : List Difficulty :=
  match current_difficulty with
  | none => ALLOWED_ACTIONS level
  | some d =>
    if (get_consecutive_performance h d 5).consecutive_wrong ≥ 2 then
      safetyRestricted d
    else ALLOWED_ACTIONS level

/-- State hashes (`QLearningEngine.hash_state` outputs) are opaque table
keys here; distinct states are modelled by distinct naturals. -/
abbrev StateHash := ℕ

/-- The per-user Q-table: a partial map from (state hash, action) to a
Q-value, `none` meaning `QTableEntry.DoesNotExist`. -/
def QTable := StateHash → Difficulty → Option ℚ

/-- Writing one `QTableEntry` in place. -/
def QTable.write (t : QTable) (s : StateHash) (a : Difficulty) (v : ℚ) : QTable :=
  fun s' a' => if s' = s ∧ a' = a then some v else t s' a'

/-- The empty Q-table. -/
def QTable.empty : QTable := fun _ _ => none

/-- Exploitation step of `choose_action`: Python's
`max(q_values, key=q_values.get)` over a dict inserted in `allowed`
order returns the first action whose Q-value (0.0 when absent) attains
the maximum. -/
def bestAction (t : QTable) (s : StateHash) : List Difficulty → Difficulty
  | [] => .easy
  | a :: rest =>
    (rest.foldl
      (fun b a' =>
        let q' := (t s a').getD 0
        if q' > b.2 then (a', q') else b)
      (a, (t s a).getD 0)).1

/-- `QLearningEngine.choose_action`.  The two random draws of the
epsilon-greedy policy are explicit: `rand_val` is `random.random()` and
`rand_idx` selects `random.choice` from the allowed list by index. -/
def choose_action (level : Level) (h : List Attempt) (t : QTable) (s : StateHash)
    (epsilon : ℚ) (rand_val : ℚ) (rand_idx : ℕ)
    (current_difficulty : Option Difficulty) : Difficulty :=
  let allowed := get_allowed_actions level h current_difficulty
  if allowed.length = 1 then allowed.headD .easy
  else if rand_val < epsilon then allowed.getD (rand_idx % allowed.length) .easy
  else bestAction t s allowed

/-- The `max_next_q` computation of `QLearningEngine.update_q`: a running
maximum started at `0.0` over the entries that exist among the base
allowed actions of the level (`get_allowed_actions(user)` with no current
difficulty), and `0.0` when there is no next state (a falsy
`next_state_tuple`). -/
def max_next_q_code (level : Level) (t : QTable) (ns : Option StateHash) : ℚ :=
  match ns with
  | none => 0
  | some s' =>
    (ALLOWED_ACTIONS level).foldl
      (fun m a => match t s' a with | some v => max m v | none => m) 0

/-- Modelled from the spec's words for claim comparison (not from the
source): "maxNextQ over the allowed actions of the next state (default 0
for missing entries; 0 if there is no next state)" — the plain maximum of
the per-action values with 0 substituted entry-wise for missing rows. -/
def maxNextQ_claim (level : Level) (t : QTable) (ns : Option StateHash) : ℚ :=
  match ns with
  | none => 0
  | some s' =>
    match (ALLOWED_ACTIONS level).map (fun a => (t s' a).getD 0) with
    | [] => 0
    | v :: vs => vs.foldl max v

/-- Result of `QLearningEngine.update_q`: the persisted table together
with the values written to the `QLearningLog` row. -/
structure UpdateResult where
  table : QTable
  q_value_before : ℚ
  q_value_after : ℚ
  max_next_q : ℚ

/-- `QLearningEngine.update_q(user, state, action, reward, next_state,
alpha, gamma)`: read the current value (created at 0.0 when absent),
apply the Bellman update and persist it.  No clamping is performed. -/
def update_q (level : Level) (t : QTable) (s : StateHash) (a : Difficulty)
    (reward : ℚ) (ns : Option StateHash) (alpha gamma : ℚ) : UpdateResult :=
  let q_value_before := (t s a).getD 0
  let m := max_next_q_code level t ns
  let q_value_after := q_value_before + alpha * (reward + gamma * m - q_value_before)
  ⟨t.write s a q_value_after, q_value_before, q_value_after, m⟩

/-- Repeated `update_q` at a fixed (state, action) with a fixed reward and
next state, as in the repeated-max-reward scenario of the spec. -/
def iterate_update (level : Level) (s : StateHash) (a : Difficulty) (reward : ℚ)
    (ns : StateHash) (alpha gamma : ℚ) : ℕ → QTable → QTable
  | 0, t => t
  | n + 1, t => iterate_update level s a reward ns alpha gamma n
      (update_q level t s a reward (some ns) alpha gamma).table

/-- `LevelTransitionPolicy.should_level_down(profile)`: beginner is a
floor, expert falls through to no demotion; intermediate and advanced
first run the quick consecutive-wrong check (window 5, threshold 3) at
the level's current difficulty and then the 10-attempt windowed-accuracy
check (thresholds 30% and 50%), which requires the window populated. -/
def should_level_down (level : Level) (h : List Attempt) : Bool × Option Level :=
  match level with
  | .beginner => (false, none)
  | .intermediate =>
    if (get_consecutive_performance h .medium 5).consecutive_wrong ≥ 3 then
      (true, some .beginner)
    else
      let ws := compute_window_stats h .medium 10
      if ws.2 ≥ 10 ∧ (ws.1 : ℚ) / (ws.2 : ℚ) ≤ 3/10 then (true, some .beginner)
      else (false, none)
  | .advanced =>
    if (get_consecutive_performance h .hard 5).consecutive_wrong ≥ 3 then
      (true, some .intermediate)
    else
      let ws := compute_window_stats h .hard 10
      if ws.2 ≥ 10 ∧ (ws.1 : ℚ) / (ws.2 : ℚ) ≤ 1/2 then (true, some .intermediate)
      else (false, none)
  | .expert => (false, none)

/-- The mutable state of `StudentProfile` that the promotion logic and
`record_attempt` touch: `xp` is kept as an integer (the code defensively
clamps it at 0 inside `add_xp`), `streak_correct` is the stored streak
field. -/
structure StudentProfile where
  level : Level
  xp : ℤ
  total_xp : ℤ
  streak_correct : ℕ
deriving DecidableEq, Repr

/-- The successor in the beginner → intermediate → advanced → expert
chain. -/
def nextLevel : Level → Option Level
  | .beginner => some .intermediate
  | .intermediate => some .advanced
  | .advanced => some .expert
  | .expert => none

/-- `LevelTransitionPolicy.can_level_up(profile)`: XP-gated with
thresholds 200, 500, 800; expert never promotes. -/
def can_level_up (p : StudentProfile) : Bool × Option Level :=
  match p.level with
  | .beginner => if p.xp ≥ 200 then (true, some .intermediate) else (false, none)
  | .intermediate => if p.xp ≥ 500 then (true, some .advanced) else (false, none)
  | .advanced => if p.xp ≥ 800 then (true, some .expert) else (false, none)
  | .expert => (false, none)

/-- `StudentProfile.add_xp(amount)`: add to `xp` and `total_xp`, clamp
`xp` at 0, then promote one level and reset `xp` to 0 when the current
level's threshold is reached. -/
def add_xp (p : StudentProfile) (amount : ℤ) : StudentProfile :=
  let xp1 := p.xp + amount
  let xp2 := if xp1 < 0 then 0 else xp1
  let tot := p.total_xp + amount
  if p.level = .beginner ∧ xp2 ≥ 200 then
    ⟨.intermediate, 0, tot, p.streak_correct⟩
  else if p.level = .intermediate ∧ xp2 ≥ 500 then
    ⟨.advanced, 0, tot, p.streak_correct⟩
  else if p.level = .advanced ∧ xp2 ≥ 800 then
    ⟨.expert, 0, tot, p.streak_correct⟩
  else
    ⟨p.level, xp2, tot, p.streak_correct⟩

/-- Python's `round` to the nearest integer, halves to the even
neighbour. -/
def pyRound (q : ℚ) : ℤ :=
  let f := Int.floor q
  let frac := q - f
  if frac < 1/2 then f
  else if frac > 1/2 then f + 1
  else if f % 2 = 0 then f else f + 1

/-- The accuracy bucketing of `QuizService.state_tuple`:
0 below 50%, 1 from 50%, 2 from 70%, 3 from 90%. -/
def discretize_accuracy (acc : ℚ) : ℕ :=
  if acc ≥ 9/10 then 3
  else if acc ≥ 7/10 then 2
  else if acc ≥ 1/2 then 1
  else 0

/-- The experience bucketing of `QuizService.state_tuple`:
0 for none, 1 for 1–4, 2 for 5–9, 3 for 10 and more attempts. -/
def discretize_experience (count : ℕ) : ℕ :=
  if count = 0 then 0
  else if count ≤ 4 then 1
  else if count ≤ 9 then 2
  else 3

/-- The consecutive-run bucketing of `QuizService.state_tuple`. -/
def discretize_consecutive (count : ℕ) : ℕ :=
  if count ≥ 6 then 3
  else if count ≥ 4 then 2
  else if count ≥ 2 then 1
  else 0

/-- The ordered state tuple built by `QuizService.state_tuple`. -/
structure StateTuple where
  level : Level
  overallAcc : ℕ
  easyAcc : ℕ
  mediumAcc : ℕ
  hardAcc : ℕ
  easyExp : ℕ
  mediumExp : ℕ
  hardExp : ℕ
  cappedStreak : ℕ
  easyConsecCorrect : ℕ
  easyConsecWrong : ℕ
deriving DecidableEq, Repr

/-- The per-difficulty accuracy percentage of
`LevelTransitionPolicy.get_user_statistics`: windowed (last 10) correct
over total, times 100, 0 when no attempts. -/
def difficultyAccuracyPct (h : List Attempt) (d : Difficulty) : ℚ :=
  let ws := compute_window_stats h d 10
  if ws.2 > 0 then (ws.1 : ℚ) / (ws.2 : ℚ) * 100 else 0

/-- The overall accuracy percentage of `get_user_statistics`: correct
over all attempts times 100, rounded to one decimal, 0 with no
attempts. -/
def overallAccuracyPct (h : List Attempt) : ℚ :=
  if h.length > 0 then
    (pyRound ((h.countP (fun a => a.is_correct) : ℚ) / (h.length : ℚ) * 100 * 10) : ℚ) / 10
  else 0

/-- `QuizService.state_tuple` on the normal (non-exception) path, as a
function of the profile's level, stored streak and attempt history. -/
def state_tuple (level : Level) (streak_correct : ℕ) (h : List Attempt) : StateTuple :=
  let consecEasy := get_consecutive_performance h .easy 5
  { level := level
    overallAcc := discretize_accuracy (overallAccuracyPct h / 100)
    easyAcc := discretize_accuracy (difficultyAccuracyPct h .easy / 100)
    mediumAcc := discretize_accuracy (difficultyAccuracyPct h .medium / 100)
    hardAcc := discretize_accuracy (difficultyAccuracyPct h .hard / 100)
    easyExp := discretize_experience (compute_window_stats h .easy 10).2
    mediumExp := discretize_experience (compute_window_stats h .medium 10).2
    hardExp := discretize_experience (compute_window_stats h .hard 10).2
    cappedStreak := min streak_correct 5
    easyConsecCorrect := discretize_consecutive consecEasy.consecutive_correct
    easyConsecWrong := discretize_consecutive consecEasy.consecutive_wrong }

/-- The fallback tuple of `QuizService.state_tuple`, returned only when an
exception occurs while building the statistics. -/
def state_tuple_fallback (level : Level) (streak_correct : ℕ) : StateTuple :=
  ⟨level, 1, 1, 0, 0, 1, 0, 0, min streak_correct 5, 0, 0⟩

/-- The difficulty multiplier shared by the XP and reward formulas of
`QuizService`. -/
def difficulty_multiplier : Difficulty → ℚ
  | .easy => 1
  | .medium => 3/2
  | .hard => 2

/-- The XP breakdown dict returned by `QuizService.calculate_attempt_xp`. -/
structure XpInfo where
  base_xp : ℤ
  repetition_multiplier : ℚ
  difficulty_multiplier : ℚ
  time_bonus : ℚ
  final_xp : ℤ
  attempt_count : ℕ
  is_first_attempt : Bool
deriving DecidableEq, Repr

/-- The per-question repetition decay of `calculate_attempt_xp`, keyed on
the count of previous attempts at that specific question. -/
def repetition_multiplier (previous_attempts : ℕ) : ℚ :=
  if previous_attempts = 0 then 1
  else if previous_attempts = 1 then 7/10
  else if previous_attempts = 2 then 1/2
  else 3/10

/-- `QuizService.calculate_attempt_xp(question, user, is_correct,
time_spent)`, with the count of previous attempts at the question made
explicit.  The time bonus applies only on the first-ever attempt (and
regardless of correctness); the total is rounded Python-style. -/
def calculate_attempt_xp (d : Difficulty) (previous_attempts : ℕ)
    (is_correct : Bool) (time_spent : ℚ) : XpInfo :=
  let base : ℤ := if is_correct then 10 else -2
  let rep := repetition_multiplier previous_attempts
  let dm := difficulty_multiplier d
  let tb : ℚ := if previous_attempts = 0 ∧ time_spent ≤ 60 then 2 - time_spent / 60 else 0
  let total : ℚ := (base : ℚ) * rep * dm + tb
  ⟨base, rep, dm, tb, pyRound total, previous_attempts + 1, previous_attempts = 0⟩

/-- The `AttemptLog` row `record_attempt` tries to create, restricted to
the fields the claims read.  No such row ever commits (see
`record_attempt`): the type only gives `RecordResult.logged` its shape. -/
structure AttemptRow where
  is_correct : Bool
  reward_numeric : ℤ
  is_first_attempt : Bool
deriving DecidableEq, Repr

instance {ε α : Type} [DecidableEq ε] [DecidableEq α] : DecidableEq (Except ε α) := fun a b =>
  match a, b with
  | .error s, .error t =>
    if h : s = t then isTrue (by rw [h]) else isFalse (by simp [h])
  | .ok u, .ok v =>
    if h : u = v then isTrue (by rw [h]) else isFalse (by simp [h])
  | .error _, .ok _ => isFalse (by simp)
  | .ok _, .error _ => isFalse (by simp)

/-- Observable outcome of one `QuizService.record_attempt` call: the
committed attempt row (`none` when the enclosing transaction rolled
back), the stored profile after the call, and either a normal return or
the uncaught exception. -/
structure RecordResult where
  logged : Option AttemptRow
  profile : StudentProfile
  outcome : Except String Unit
deriving DecidableEq, Repr

/-- The `xp_earned` value `record_attempt` computes before trying to
create the attempt row: `calculate_attempt_xp`'s rounded total on the
user's first attempt at the question, and 0 on every repeat attempt (the
anti-farming gate of the `is_first_attempt` branch). -/
def record_attempt_xp_earned (d : Difficulty) (previous_attempts : ℕ)
    (is_correct : Bool) (time_spent : ℚ) : ℤ :=
  if previous_attempts = 0 then
    (calculate_attempt_xp d previous_attempts is_correct time_spent).final_xp
  else 0

/-- `QuizService.record_attempt(profile, question, chosen_answer,
time_spent)` with the validation outcome and the previous-attempt count
made explicit.  The code first computes `xp_earned` (see
`record_attempt_xp_earned`) and the hint, then calls
`AttemptLog.objects.create(..., is_first_attempt=...)`.  The
`AttemptLog` model class defines no `is_first_attempt` field (only a
database migration adds the column), so Django raises `TypeError` at row
construction, inside `transaction.atomic()`, on every call: the
transaction rolls back, no row ever commits, and the profile-update and
streak code further down (which would itself read the equally
nonexistent attribute `profile.streak_count`) is unreachable.  The
stored profile is therefore never mutated. -/
def record_attempt (p : StudentProfile) (d : Difficulty) (previous_attempts : ℕ)
    (is_correct : Bool) (time_spent : ℚ) : RecordResult :=
  let _xp_earned : ℤ := record_attempt_xp_earned d previous_attempts is_correct time_spent
  ⟨none, p, Except.error "TypeError: is_first_attempt"⟩

/-- Difficulty order used to state that the safety sets exclude harder
difficulties. -/
def rank : Difficulty → ℕ
  | .easy => 0
  | .medium => 1
  | .hard => 2

/-- History: two consecutive wrong answers on hard questions. -/
def hTwoWrongHard : List Attempt := [⟨.hard, false⟩, ⟨.hard, false⟩]

/-- History: two consecutive wrong answers on easy questions. -/
def hTwoWrongEasy : List Attempt := [⟨.easy, false⟩, ⟨.easy, false⟩]

/-- History: two consecutive wrong answers on medium questions. -/
def hTwoWrongMedium : List Attempt := [⟨.medium, false⟩, ⟨.medium, false⟩]

/-- History: three consecutive wrong answers on medium questions. -/
def hThreeWrongMedium : List Attempt :=
  [⟨.medium, false⟩, ⟨.medium, false⟩, ⟨.medium, false⟩]

/-- History: three consecutive wrong answers on easy questions. -/
def hThreeWrongEasy : List Attempt :=
  [⟨.easy, false⟩, ⟨.easy, false⟩, ⟨.easy, false⟩]

/-- History: a streak of five correct easy answers together with three
consecutive wrong medium answers. -/
def hMixedStreaks : List Attempt :=
  [⟨.easy, true⟩, ⟨.easy, true⟩, ⟨.easy, true⟩, ⟨.easy, true⟩, ⟨.easy, true⟩,
   ⟨.medium, false⟩, ⟨.medium, false⟩, ⟨.medium, false⟩]

/-- A Q-table whose state 1 holds the value −1 for every action and which
is empty elsewhere. -/
def tAllNeg : QTable := fun s _ => if s = 1 then some (-1) else none

/-- C3 (amended): whenever the safety-constrained allowed-action list of
`get_allowed_actions` is a singleton, `choose_action` returns that action
for every epsilon, every Q-table and every random draw; in particular an
expert-level user receives `hard` whenever the 2-consecutive-wrong safety
restriction is not active for the supplied current difficulty. -/
theorem choose_action_singleton (level : Level) (h : List Attempt) (t : QTable)
    (s : StateHash) (epsilon rand_val : ℚ) (rand_idx : ℕ)
    (cd : Option Difficulty) :
    (∀ d, get_allowed_actions level h cd = [d] →
      choose_action level h t s epsilon rand_val rand_idx cd = d)
    ∧ (level = .expert →
        (∀ d, cd = some d → (get_consecutive_performance h d 5).consecutive_wrong < 2) →
        choose_action level h t s epsilon rand_val rand_idx cd = .hard) := by
  constructor
  · intro d hd
    simp [choose_action, hd]
  · rintro rfl hcw
    cases cd with
    | none => simp [choose_action, get_allowed_actions, ALLOWED_ACTIONS]
    | some d =>
      have h2 : ¬ ((get_consecutive_performance h d 5).consecutive_wrong ≥ 2) := by
        have := hcw d rfl
        omega
      simp [choose_action, get_allowed_actions, h2, ALLOWED_ACTIONS]

/-- C3 counterexample: an expert user who is struggling on hard (two
consecutive wrong within the last five hard attempts) has the two-element
allowed set `[medium, hard]`, and an exploration draw returns `medium`,
not the base singleton `hard`. -/
theorem choose_action_expert_not_singleton :
    get_allowed_actions .expert hTwoWrongHard (some .hard) = [.medium, .hard]
    ∧ choose_action .expert hTwoWrongHard QTable.empty 0 1 0 0 (some .hard) = .medium
    ∧ Difficulty.medium ≠ Difficulty.hard := by
  refine ⟨by decide, by decide, by decide⟩

/-- C3 witness: an expert user with no current difficulty gets the
singleton `[hard]` and `choose_action` returns `hard` even with a forced
exploration draw. -/
theorem choose_action_singleton_witness :
    choose_action .expert [] QTable.empty 0 1 0 0 none = .hard :=
  (choose_action_singleton .expert [] QTable.empty 0 1 0 0 none).2 rfl
    (fun d hd => by cases hd)

/-- C4 (amended): `get_allowed_actions` returns the level's base set
unless the current difficulty shows at least two consecutive wrong within
its last five attempts, in which case it returns a fixed set keyed only
on the current difficulty (easy→[easy], medium→[easy, medium],
hard→[medium, hard]); the replacement set contains nothing harder than
the current difficulty but need not be a subset of the level's base set,
and the result is always non-empty. -/
theorem get_allowed_actions_spec (level : Level) (h : List Attempt)
    (cd : Option Difficulty) :
    (cd = none → get_allowed_actions level h cd = ALLOWED_ACTIONS level)
    ∧ (∀ d, cd = some d →
        (get_consecutive_performance h d 5).consecutive_wrong < 2 →
        get_allowed_actions level h cd = ALLOWED_ACTIONS level)
    ∧ (∀ d, cd = some d →
        (get_consecutive_performance h d 5).consecutive_wrong ≥ 2 →
        get_allowed_actions level h cd = safetyRestricted d)
    ∧ get_allowed_actions level h cd ≠ []
    ∧ (∀ d x, x ∈ safetyRestricted d → rank x ≤ rank d) := by
  refine ⟨?_, ?_, ?_, ?_, ?_⟩
  · rintro rfl; rfl
  · rintro d rfl hlt
    have h2 : ¬ ((get_consecutive_performance h d 5).consecutive_wrong ≥ 2) := by omega
    simp [get_allowed_actions, h2]
  · rintro d rfl hge
    simp [get_allowed_actions, hge]
  · cases cd with
    | none => cases level <;> simp [get_allowed_actions, ALLOWED_ACTIONS]
    | some d =>
      by_cases h2 : (get_consecutive_performance h d 5).consecutive_wrong ≥ 2
      · cases d <;> simp [get_allowed_actions, h2, safetyRestricted]
      · cases level <;> simp [get_allowed_actions, h2, ALLOWED_ACTIONS]
  · intro d x hx
    cases d <;> cases x <;> simp_all [safetyRestricted, rank]

/-- C4 counterexample: an advanced user struggling on easy questions gets
the set `[easy]`, which is not a subset of the advanced base set
`[medium, hard]` — the safety check replaces the base set instead of
shrinking it. -/
theorem get_allowed_actions_not_subset :
    get_allowed_actions .advanced hTwoWrongEasy (some .easy) = [.easy]
    ∧ Difficulty.easy ∉ ALLOWED_ACTIONS .advanced := by
  refine ⟨by decide, by decide⟩

/-- C4 witness: a beginner struggling on medium is restricted to the
safety set `[easy, medium]`. -/
theorem get_allowed_actions_spec_witness :
    get_allowed_actions .beginner hTwoWrongMedium (some .medium)
      = safetyRestricted .medium :=
  (get_allowed_actions_spec .beginner hTwoWrongMedium (some .medium)).2.2.1 .medium rfl
    (by decide)

/-- C5: `should_level_down` never demotes a beginner (nor an expert),
every demotion moves exactly one level back (intermediate→beginner,
advanced→intermediate), the consecutive-wrong fast path (at least 3
consecutive wrong at the level's current difficulty within its last 5
attempts) fires regardless of the windowed-accuracy trigger, and the
windowed-accuracy trigger alone never fires with fewer than 10 attempts
at that difficulty. -/
theorem should_level_down_spec (h : List Attempt) :
    should_level_down .beginner h = (false, none)
    ∧ should_level_down .expert h = (false, none)
    ∧ (∀ level target, should_level_down level h = (true, some target) →
        (level = .intermediate ∧ target = .beginner)
          ∨ (level = .advanced ∧ target = .intermediate))
    ∧ ((get_consecutive_performance h .medium 5).consecutive_wrong ≥ 3 →
        should_level_down .intermediate h = (true, some .beginner))
    ∧ ((get_consecutive_performance h .hard 5).consecutive_wrong ≥ 3 →
        should_level_down .advanced h = (true, some .intermediate))
    ∧ ((get_consecutive_performance h .medium 5).consecutive_wrong < 3 →
        (compute_window_stats h .medium 10).2 < 10 →
        should_level_down .intermediate h = (false, none))
    ∧ ((get_consecutive_performance h .hard 5).consecutive_wrong < 3 →
        (compute_window_stats h .hard 10).2 < 10 →
        should_level_down .advanced h = (false, none)) := by
  refine ⟨rfl, rfl, ?_, ?_, ?_, ?_, ?_⟩
  · intro level target heq
    cases level with
    | beginner => simp [should_level_down] at heq
    | expert => simp [should_level_down] at heq
    | intermediate =>
      left
      simp only [should_level_down] at heq
      split_ifs at heq <;> simp_all
    | advanced =>
      right
      simp only [should_level_down] at heq
      split_ifs at heq <;> simp_all
  · intro h3
    simp [should_level_down, h3]
  · intro h3
    simp [should_level_down, h3]
  · intro h3 h10
    have hn : ¬ ((get_consecutive_performance h .medium 5).consecutive_wrong ≥ 3) := by omega
    have hw : ¬ ((compute_window_stats h .medium 10).2 ≥ 10) := by omega
    simp [should_level_down, hn, hw]
  · intro h3 h10
    have hn : ¬ ((get_consecutive_performance h .hard 5).consecutive_wrong ≥ 3) := by omega
    have hw : ¬ ((compute_window_stats h .hard 10).2 ≥ 10) := by omega
    simp [should_level_down, hn, hw]

/-- C5 witness: an intermediate user with exactly three consecutive wrong
medium attempts is demoted to beginner by the fast path even though only
three medium attempts exist (so the 10-attempt window is not populated). -/
theorem should_level_down_spec_witness :
    (get_consecutive_performance hThreeWrongMedium .medium 5).consecutive_wrong ≥ 3
    ∧ should_level_down .intermediate hThreeWrongMedium = (true, some .beginner) :=
  ⟨by decide, (should_level_down_spec hThreeWrongMedium).2.2.2.1 (by decide)⟩

/-- C6: `can_level_up` is XP-gated with thresholds 200/500/800 for
beginner/intermediate/advanced, expert never promotes, and whenever
`add_xp` changes the level the XP is reset to 0 and the level advances
exactly one step. -/
theorem can_level_up_add_xp_spec (p : StudentProfile) (amount : ℤ) :
    ((can_level_up p).1 = true ↔
      (p.level = .beginner ∧ p.xp ≥ 200)
        ∨ (p.level = .intermediate ∧ p.xp ≥ 500)
        ∨ (p.level = .advanced ∧ p.xp ≥ 800))
    ∧ (p.level = .expert → can_level_up p = (false, none))
    ∧ ((add_xp p amount).level ≠ p.level →
        (add_xp p amount).xp = 0 ∧ nextLevel p.level = some (add_xp p amount).level) := by
  obtain ⟨level, xp, tot, streak⟩ := p
  refine ⟨?_, ?_, ?_⟩
  · cases level <;> simp [can_level_up] <;> split_ifs <;> simp_all
  · rintro rfl; rfl
  · intro hne
    cases level <;>
      simp only [add_xp] at hne ⊢ <;>
      split_ifs at hne ⊢ <;>
      simp_all [nextLevel]

/-- C6 witness: a beginner at 199 XP cannot promote, at 200 XP can, and
adding 50 XP to a beginner at 150 XP promotes exactly one level with the
XP reset to 0. -/
theorem can_level_up_add_xp_spec_witness :
    ¬ ((can_level_up ⟨.beginner, 199, 199, 0⟩).1 = true)
    ∧ (can_level_up ⟨.beginner, 200, 200, 0⟩).1 = true
    ∧ (add_xp ⟨.beginner, 150, 150, 0⟩ 50).xp = 0
    ∧ nextLevel .beginner = some (add_xp ⟨.beginner, 150, 150, 0⟩ 50).level :=
  ⟨fun hc => by
      rcases (can_level_up_add_xp_spec ⟨.beginner, 199, 199, 0⟩ 0).1.mp hc with
        h | h | h <;> simp_all,
   (can_level_up_add_xp_spec ⟨.beginner, 200, 200, 0⟩ 0).1.mpr (Or.inl ⟨rfl, by decide⟩),
   ((can_level_up_add_xp_spec ⟨.beginner, 150, 150, 0⟩ 50).2.2 (by decide)).1,
   ((can_level_up_add_xp_spec ⟨.beginner, 150, 150, 0⟩ 50).2.2 (by decide)).2⟩

/-- C7 (amended): `get_dynamic_epsilon` scans the tracked difficulties in
the fixed order easy, medium, hard and returns at the first difficulty
whose last-5 consecutive statistics trigger: at least 3 consecutive wrong
gives exactly 0.5 × the level's base epsilon, otherwise at least 5
consecutive correct gives min(1.2 × base, 0.3); with no trigger the base
epsilon is returned.  A trigger on an earlier difficulty therefore
shadows a 3-consecutive-wrong trigger on a later one. -/
theorem get_dynamic_epsilon_scan (level : Level) (h : List Attempt) :
    ((get_consecutive_performance h .easy 5).consecutive_wrong ≥ 3 →
      get_dynamic_epsilon level h = EPSILON_BY_LEVEL level * (1/2))
    ∧ ((get_consecutive_performance h .easy 5).consecutive_wrong < 3 →
        (get_consecutive_performance h .easy 5).consecutive_correct ≥ 5 →
        get_dynamic_epsilon level h = min (EPSILON_BY_LEVEL level * (6/5)) (3/10))
    ∧ ((get_consecutive_performance h .easy 5).consecutive_wrong < 3 →
        (get_consecutive_performance h .easy 5).consecutive_correct < 5 →
        (get_consecutive_performance h .medium 5).consecutive_wrong ≥ 3 →
        get_dynamic_epsilon level h = EPSILON_BY_LEVEL level * (1/2))
    ∧ ((get_consecutive_performance h .easy 5).consecutive_wrong < 3 →
        (get_consecutive_performance h .easy 5).consecutive_correct < 5 →
        (get_consecutive_performance h .medium 5).consecutive_wrong < 3 →
        (get_consecutive_performance h .medium 5).consecutive_correct ≥ 5 →
        get_dynamic_epsilon level h = min (EPSILON_BY_LEVEL level * (6/5)) (3/10))
    ∧ ((get_consecutive_performance h .easy 5).consecutive_wrong < 3 →
        (get_consecutive_performance h .easy 5).consecutive_correct < 5 →
        (get_consecutive_performance h .medium 5).consecutive_wrong < 3 →
        (get_consecutive_performance h .medium 5).consecutive_correct < 5 →
        (get_consecutive_performance h .hard 5).consecutive_wrong ≥ 3 →
        get_dynamic_epsilon level h = EPSILON_BY_LEVEL level * (1/2))
    ∧ ((get_consecutive_performance h .easy 5).consecutive_wrong < 3 →
        (get_consecutive_performance h .easy 5).consecutive_correct < 5 →
        (get_consecutive_performance h .medium 5).consecutive_wrong < 3 →
        (get_consecutive_performance h .medium 5).consecutive_correct < 5 →
        (get_consecutive_performance h .hard 5).consecutive_wrong < 3 →
        (get_consecutive_performance h .hard 5).consecutive_correct ≥ 5 →
        get_dynamic_epsilon level h = min (EPSILON_BY_LEVEL level * (6/5)) (3/10))
    ∧ ((get_consecutive_performance h .easy 5).consecutive_wrong < 3 →
        (get_consecutive_performance h .easy 5).consecutive_correct < 5 →
        (get_consecutive_performance h .medium 5).consecutive_wrong < 3 →
        (get_consecutive_performance h .medium 5).consecutive_correct < 5 →
        (get_consecutive_performance h .hard 5).consecutive_wrong < 3 →
        (get_consecutive_performance h .hard 5).consecutive_correct < 5 →
        get_dynamic_epsilon level h = EPSILON_BY_LEVEL level) := by
  refine ⟨?_, ?_, ?_, ?_, ?_, ?_, ?_⟩ <;>
    intros <;>
    simp only [get_dynamic_epsilon, epsilonScan] <;>
    split_ifs <;>
    first
      | rfl
      | omega

/-- C7 counterexample: a beginner with five consecutive correct easy
answers and three consecutive wrong medium answers gets epsilon 0.3 (the
correct-streak branch on easy, scanned first), not the 0.5 × 0.25 =
0.125 that the 3-consecutive-wrong rule would demand. -/
theorem get_dynamic_epsilon_shadowed :
    (get_consecutive_performance hMixedStreaks .medium 5).consecutive_wrong ≥ 3
    ∧ get_dynamic_epsilon .beginner hMixedStreaks = 3/10
    ∧ (3/10 : ℚ) ≠ EPSILON_BY_LEVEL .beginner * (1/2) := by
  have e1 : (get_consecutive_performance hMixedStreaks .easy 5).consecutive_wrong = 0 := by
    decide
  have e2 : (get_consecutive_performance hMixedStreaks .easy 5).consecutive_correct = 5 := by
    decide
  refine ⟨by decide, ?_, by norm_num [EPSILON_BY_LEVEL]⟩
  simp only [get_dynamic_epsilon, epsilonScan, e1, e2]
  norm_num [EPSILON_BY_LEVEL]

/-- C7 witness: a beginner whose only streak is three consecutive wrong
easy answers gets exactly half the base epsilon. -/
theorem get_dynamic_epsilon_scan_witness :
    get_dynamic_epsilon .beginner hThreeWrongEasy = EPSILON_BY_LEVEL .beginner * (1/2) :=
  (get_dynamic_epsilon_scan .beginner hThreeWrongEasy).1 (by decide)

/-- With no attempts every statistic feeding `state_tuple` is zero, so
all accuracy, experience and consecutive buckets evaluate to 0. -/
lemma state_tuple_nil (level : Level) (streak : ℕ) :
    state_tuple level streak [] = ⟨level, 0, 0, 0, 0, 0, 0, 0, min streak 5, 0, 0⟩ := by
  simp only [state_tuple, overallAccuracyPct, difficultyAccuracyPct, compute_window_stats,
    attemptsAt, get_consecutive_performance, List.filter_nil, List.take_nil,
    List.length_nil, List.countP_nil]
  norm_num [discretize_accuracy, discretize_experience, discretize_consecutive]

/-- C8 (amended): with an empty attempt history the normal path of
`state_tuple` produces the all-zero accuracy, experience and consecutive
buckets (with the streak capped at 5); the neutral mid-bucket defaults
(overall accuracy 1, easy accuracy 1, easy experience 1) belong only to
the exception-fallback tuple. -/
theorem state_tuple_empty_history (level : Level) (streak : ℕ) :
    state_tuple level streak [] = ⟨level, 0, 0, 0, 0, 0, 0, 0, min streak 5, 0, 0⟩
    ∧ state_tuple_fallback level streak
        = ⟨level, 1, 1, 0, 0, 1, 0, 0, min streak 5, 0, 0⟩ :=
  ⟨state_tuple_nil level streak, rfl⟩

/-- C8 counterexample: a fresh beginner with no attempts is encoded with
zero buckets everywhere — in particular the overall-accuracy bucket is 0,
not a neutral mid bucket. -/
theorem state_tuple_empty_is_zero :
    state_tuple .beginner 0 [] = ⟨.beginner, 0, 0, 0, 0, 0, 0, 0, 0, 0, 0⟩
    ∧ (state_tuple .beginner 0 []).overallAcc ≠ 1
    ∧ (state_tuple .beginner 0 []).easyExp ≠ 1 := by
  rw [state_tuple_nil]
  refine ⟨rfl, by simp, by simp⟩

/-- C9 (amended): `calculate_attempt_xp` applies the repetition decay
1.0/0.7/0.5/0.3 keyed on the count of previous distinct attempts at the
question, the speed bonus only on the first-ever attempt, and a correct
second attempt would compute the non-zero 0.7-scaled value (7/10/14 XP
for easy/medium/hard); but `record_attempt` gates its `xp_earned` to
first attempts (0 for every repeat) and in fact awards nothing at all —
every call fails at `AttemptLog.objects.create` with a `TypeError` over
the nonexistent `is_first_attempt` field, so no row is ever logged. -/
theorem attempt_xp_gating (d : Difficulty) (previous_attempts : ℕ) (is_correct : Bool)
    (time_spent : ℚ) (p : StudentProfile) :
    (calculate_attempt_xp d previous_attempts is_correct time_spent).repetition_multiplier
      = repetition_multiplier previous_attempts
    ∧ (previous_attempts ≠ 0 →
        (calculate_attempt_xp d previous_attempts is_correct time_spent).time_bonus = 0)
    ∧ (previous_attempts = 1 → is_correct = true →
        (calculate_attempt_xp d previous_attempts is_correct time_spent).final_xp
          = (match d with | .easy => 7 | .medium => 10 | .hard => 14))
    ∧ (previous_attempts ≠ 0 →
        record_attempt_xp_earned d previous_attempts is_correct time_spent = 0)
    ∧ (record_attempt p d previous_attempts is_correct time_spent).logged = none
    ∧ (record_attempt p d previous_attempts is_correct time_spent).profile = p := by
  refine ⟨rfl, ?_, ?_, ?_, rfl, rfl⟩
  · intro h0
    simp [calculate_attempt_xp, h0]
  · rintro rfl rfl
    cases d <;>
      simp only [calculate_attempt_xp, repetition_multiplier, difficulty_multiplier] <;>
      norm_num [pyRound]
  · intro h0
    simp [record_attempt_xp_earned, h0]

/-- C9 counterexample: on a correct second attempt at an easy question
`record_attempt` computes `xp_earned = 0` and then fails at the row
creation, so nothing is awarded or logged, although the 0.7-scaled
amount computed by `calculate_attempt_xp` would be the non-zero 7. -/
theorem second_attempt_earns_zero :
    record_attempt ⟨.beginner, 0, 0, 0⟩ .easy 1 true 30
      = ⟨none, ⟨.beginner, 0, 0, 0⟩, Except.error "TypeError: is_first_attempt"⟩
    ∧ record_attempt_xp_earned .easy 1 true 30 = 0
    ∧ (calculate_attempt_xp .easy 1 true 30).final_xp = 7
    ∧ (0 : ℤ) ≠ 7 := by
  refine ⟨rfl, rfl, ?_, by decide⟩
  norm_num [calculate_attempt_xp, repetition_multiplier, difficulty_multiplier, pyRound]

/-- C9 witness: instantiating the repeat-attempt gate at a concrete
second attempt on a medium question. -/
theorem attempt_xp_gating_witness :
    record_attempt_xp_earned .medium 1 false 20 = 0 :=
  (attempt_xp_gating .medium 1 false 20 ⟨.intermediate, 40, 40, 2⟩).2.2.2.1 (by decide)

/-- C10: evaluation of `record_attempt` at the failing input — a user's
first, correct attempt at an easy question answered in 30 seconds.  The
code computes the positive XP 12, but `AttemptLog.objects.create` is
passed `is_first_attempt`, a field the `AttemptLog` model class does not
define, so `TypeError` is raised at row construction inside the
transaction: no row commits, the guarded profile-update block (and its
read of the equally nonexistent `profile.streak_count`) is never
reached, and the stored profile is unchanged — on this and on every
other input. -/
theorem record_attempt_create_type_error :
    record_attempt ⟨.beginner, 0, 0, 0⟩ .easy 0 true 30
      = ⟨none, ⟨.beginner, 0, 0, 0⟩, Except.error "TypeError: is_first_attempt"⟩
    ∧ record_attempt_xp_earned .easy 0 true 30 = 12
    ∧ ∀ (p : StudentProfile) (d : Difficulty) (n : ℕ) (c : Bool) (t : ℚ),
        (record_attempt p d n c t).profile = p
        ∧ (record_attempt p d n c t).logged = none := by
  refine ⟨rfl, ?_, fun p d n c t => ⟨rfl, rfl⟩⟩
  norm_num [record_attempt_xp_earned, calculate_attempt_xp, repetition_multiplier,
    difficulty_multiplier, pyRound]

/-- The 0-seeded running maximum over existing entries agrees with the
running maximum over entries padded with 0, as long as the seed is
non-negative. -/
lemma foldCode_eq_pad (t : QTable) (s' : StateHash) :
    ∀ (l : List Difficulty) (m : ℚ), 0 ≤ m →
      l.foldl (fun x a => match t s' a with | some v => max x v | none => x) m
        = l.foldl (fun x a => max x ((t s' a).getD 0)) m := by
  intro l
  induction l with
  | nil => intro m _; rfl
  | cons a l ih =>
    intro m hm
    simp only [List.foldl_cons]
    cases hta : t s' a with
    | none =>
      simp only [hta, Option.getD_none, max_eq_left hm]
      exact ih m hm
    | some v =>
      simp only [hta, Option.getD_some]
      exact ih (max m v) (le_trans hm (le_max_left _ _))

/-- Pulling the first argument out of a left fold of `max`. -/
lemma foldl_max_init (l : List ℚ) :
    ∀ a b : ℚ, l.foldl max (max a b) = max a (l.foldl max b) := by
  induction l with
  | nil => intro a b; rfl
  | cons c l ih =>
    intro a b
    simp only [List.foldl_cons]
    rw [max_assoc]
    exact ih a (max b c)

/-- The source's 0-seeded running maximum over existing entries equals
the maximum of 0 and the spec-style maximum that pads each missing entry
with 0. -/
lemma code_eq_max0_claim (t : QTable) (s' : StateHash) (l : List Difficulty)
    (hne : l ≠ []) :
    l.foldl (fun x a => match t s' a with | some v => max x v | none => x) 0
      = max 0 (match l.map (fun a => (t s' a).getD 0) with
               | [] => 0
               | v :: vs => vs.foldl max v) := by
  obtain ⟨x, xs, rfl⟩ := List.exists_cons_of_ne_nil hne
  rw [foldCode_eq_pad t s' _ 0 le_rfl]
  have hmap : (x :: xs).foldl (fun m a => max m ((t s' a).getD 0)) 0
      = ((x :: xs).map (fun a => (t s' a).getD 0)).foldl max 0 := by
    rw [List.foldl_map]
  rw [hmap]
  simp only [List.map_cons, List.foldl_cons]
  exact foldl_max_init _ 0 _

/-- C2 (amended): `update_q` persists exactly
`q_before + α·(reward + γ·maxNextQ − q_before)` with no clamping, where
`maxNextQ` is the maximum of 0 and the spec's per-missing-entry-default
maximum over the level's base allowed actions of the next state (so 0
also floors the result when every stored value is negative), and 0 when
there is no next state; for `α > 0` the stored value strictly increases
when `reward + γ·maxNextQ > q_before` and strictly decreases when it is
smaller. -/
theorem update_q_spec (level : Level) (t : QTable) (s : StateHash) (a : Difficulty)
    (reward : ℚ) (ns : Option StateHash) (alpha gamma : ℚ) :
    ((update_q level t s a reward ns alpha gamma).table s a
        = some ((t s a).getD 0
            + alpha * (reward + gamma * max_next_q_code level t ns - (t s a).getD 0)))
    ∧ max_next_q_code level t ns = max 0 (maxNextQ_claim level t ns)
    ∧ (0 < alpha →
        (t s a).getD 0 < reward + gamma * max_next_q_code level t ns →
        (t s a).getD 0 < (update_q level t s a reward ns alpha gamma).q_value_after)
    ∧ (0 < alpha →
        reward + gamma * max_next_q_code level t ns < (t s a).getD 0 →
        (update_q level t s a reward ns alpha gamma).q_value_after < (t s a).getD 0) := by
  refine ⟨?_, ?_, ?_, ?_⟩
  · simp [update_q, QTable.write]
  · cases ns with
    | none => simp [max_next_q_code, maxNextQ_claim]
    | some s' =>
      simp only [max_next_q_code, maxNextQ_claim]
      exact code_eq_max0_claim t s' (ALLOWED_ACTIONS level)
        (by cases level <;> simp [ALLOWED_ACTIONS])
  · intro ha hlt
    have h1 : 0 < alpha * (reward + gamma * max_next_q_code level t ns - (t s a).getD 0) :=
      mul_pos ha (by linarith)
    simp only [update_q]
    linarith
  · intro ha hlt
    have h1 : alpha * (reward + gamma * max_next_q_code level t ns - (t s a).getD 0) < 0 :=
      mul_neg_of_pos_of_neg ha (by linarith)
    simp only [update_q]
    linarith

/-- C2 counterexample: when every allowed action of the next state is
stored with Q-value −1, the code persists 0 + 0.1·(0 + 0.9·0 − 0) = 0
while the claim's per-missing-default maximum (−1, since nothing is
missing) would persist −9/100 — the two disagree on a reachable table. -/
theorem update_q_maxnext_differs :
    (update_q .intermediate tAllNeg 0 .easy 0 (some 1) (1/10) (9/10)).q_value_after = 0
    ∧ (tAllNeg 0 .easy).getD 0
        + (1/10) * (0 + (9/10) * maxNextQ_claim .intermediate tAllNeg (some 1)
            - (tAllNeg 0 .easy).getD 0) = -(9/100)
    ∧ (0 : ℚ) ≠ -(9/100) := by
  have h01 : max (0:ℚ) (-1) = 0 := max_eq_left (by norm_num)
  have hm : max_next_q_code .intermediate tAllNeg (some 1) = 0 := by
    simp [max_next_q_code, ALLOWED_ACTIONS, tAllNeg, h01]
  have hc : maxNextQ_claim .intermediate tAllNeg (some 1) = -1 := by
    simp [maxNextQ_claim, ALLOWED_ACTIONS, tAllNeg]
  refine ⟨?_, ?_, by norm_num⟩
  · norm_num [update_q, hm, tAllNeg]
  · norm_num [hc, tAllNeg]

/-- C2 witness: a fresh entry updated with reward 1 and no next state
strictly increases from 0. -/
theorem update_q_spec_witness :
    (0:ℚ) < 1/10
    ∧ (QTable.empty 0 .easy).getD 0
        < 1 + (9/10) * max_next_q_code .beginner QTable.empty none
    ∧ (QTable.empty 0 .easy).getD 0
        < (update_q .beginner QTable.empty 0 .easy 1 none (1/10) (9/10)).q_value_after :=
  ⟨by norm_num,
   by norm_num [QTable.empty, max_next_q_code],
   (update_q_spec .beginner QTable.empty 0 .easy 1 none (1/10) (9/10)).2.2.1
     (by norm_num) (by norm_num [QTable.empty, max_next_q_code])⟩

/-- The running-maximum fold reads the table only at the next state. -/
lemma foldCode_ext (t1 t2 : QTable) (s' : StateHash)
    (hpt : ∀ b, t1 s' b = t2 s' b) :
    ∀ (l : List Difficulty) (m : ℚ),
      l.foldl (fun x b => match t1 s' b with | some v => max x v | none => x) m
        = l.foldl (fun x b => match t2 s' b with | some v => max x v | none => x) m := by
  intro l
  induction l with
  | nil => intro m; rfl
  | cons b l ih =>
    intro m
    simp only [List.foldl_cons, hpt b]
    exact ih _

/-- Writing an entry of a different state leaves `max_next_q` unchanged. -/
lemma max_next_q_write_ne (level : Level) (t : QTable) (s s' : StateHash)
    (a : Difficulty) (v : ℚ) (hne : s' ≠ s) :
    max_next_q_code level (t.write s a v) (some s') = max_next_q_code level t (some s') := by
  have hpt : ∀ b, (t.write s a v) s' b = t s' b := by
    intro b
    simp [QTable.write, hne]
  simp only [max_next_q_code]
  exact foldCode_ext _ _ _ hpt (ALLOWED_ACTIONS level) 0

/-- C1 (amended): `update_q` applies no clamping — no configured floor or
ceiling exists in the code — but repeated updates at one (state, action)
with a fixed reward and a fixed distinct next state cannot diverge: for
`0 ≤ α ≤ 1` every iterate stays at or below
`max(initial Q, reward + γ·maxNextQ)`, so boundedness under repetition
comes from the contraction of the Bellman update, not from a clamp. -/
theorem update_q_unclamped_bounded (level : Level) (s : StateHash) (a : Difficulty)
    (reward : ℚ) (ns : StateHash) (alpha gamma : ℚ)
    (h0 : 0 ≤ alpha) (h1 : alpha ≤ 1) (hns : ns ≠ s) :
    ∀ (n : ℕ) (t : QTable),
      ((iterate_update level s a reward ns alpha gamma n t) s a).getD 0
        ≤ max ((t s a).getD 0) (reward + gamma * max_next_q_code level t (some ns)) := by
  intro n
  induction n with
  | zero => intro t; exact le_max_left _ _
  | succ n ih =>
    intro t
    have hstep : iterate_update level s a reward ns alpha gamma (n + 1) t
        = iterate_update level s a reward ns alpha gamma n
            (update_q level t s a reward (some ns) alpha gamma).table := rfl
    have ht' : (update_q level t s a reward (some ns) alpha gamma).table
        = t.write s a ((t s a).getD 0
            + alpha * (reward + gamma * max_next_q_code level t (some ns) - (t s a).getD 0)) :=
      rfl
    have hM : max_next_q_code level
          (update_q level t s a reward (some ns) alpha gamma).table (some ns)
        = max_next_q_code level t (some ns) := by
      rw [ht']
      exact max_next_q_write_ne level t s ns a _ hns
    have hq : ((update_q level t s a reward (some ns) alpha gamma).table s a).getD 0
        = (t s a).getD 0
            + alpha * (reward + gamma * max_next_q_code level t (some ns) - (t s a).getD 0) := by
      rw [ht']
      simp [QTable.write]
    have hbound : ((update_q level t s a reward (some ns) alpha gamma).table s a).getD 0
        ≤ max ((t s a).getD 0) (reward + gamma * max_next_q_code level t (some ns)) := by
      rw [hq]
      rcases le_total ((t s a).getD 0)
          (reward + gamma * max_next_q_code level t (some ns)) with hle | hle
      · refine le_trans ?_ (le_max_right _ _)
        nlinarith [mul_nonneg (by linarith : (0:ℚ) ≤ 1 - alpha)
          (by linarith : (0:ℚ) ≤ reward + gamma * max_next_q_code level t (some ns)
              - (t s a).getD 0)]
      · refine le_trans ?_ (le_max_left _ _)
        nlinarith [mul_nonneg h0
          (by linarith : (0:ℚ) ≤ (t s a).getD 0
              - (reward + gamma * max_next_q_code level t (some ns)))]
    calc ((iterate_update level s a reward ns alpha gamma (n + 1) t) s a).getD 0
        = ((iterate_update level s a reward ns alpha gamma n
            (update_q level t s a reward (some ns) alpha gamma).table) s a).getD 0 := by
          rw [hstep]
      _ ≤ max (((update_q level t s a reward (some ns) alpha gamma).table s a).getD 0)
            (reward + gamma * max_next_q_code level
              (update_q level t s a reward (some ns) alpha gamma).table (some ns)) := ih _
      _ = max (((update_q level t s a reward (some ns) alpha gamma).table s a).getD 0)
            (reward + gamma * max_next_q_code level t (some ns)) := by rw [hM]
      _ ≤ max (max ((t s a).getD 0) (reward + gamma * max_next_q_code level t (some ns)))
            (reward + gamma * max_next_q_code level t (some ns)) :=
          max_le_max hbound le_rfl
      _ = max ((t s a).getD 0) (reward + gamma * max_next_q_code level t (some ns)) := by
          rw [max_assoc, max_self]

/-- C1 counterexample: no configured range bounds the values persisted by
`update_q` (at the code's default α = 0.1, γ = 0.9): for any candidate
floor and ceiling there is a reward whose single update writes a value
above the ceiling, so the claimed clamp does not exist in the code. -/
theorem update_q_no_clamp :
    ¬ ∃ lo hi : ℚ, ∀ (t : QTable) (s : StateHash) (a : Difficulty) (reward : ℚ)
        (ns : Option StateHash),
      lo ≤ (update_q .beginner t s a reward ns (1/10) (9/10)).q_value_after
      ∧ (update_q .beginner t s a reward ns (1/10) (9/10)).q_value_after ≤ hi := by
  rintro ⟨lo, hi, hall⟩
  have h := (hall QTable.empty 0 .easy (10 * (hi + 1)) none).2
  have heval : (update_q .beginner QTable.empty 0 .easy (10 * (hi + 1)) none
      (1/10) (9/10)).q_value_after = hi + 1 := by
    simp only [update_q, max_next_q_code, QTable.empty, Option.getD_none]
    ring
  rw [heval] at h
  linarith

/-- C1 witness: three repeated reward-10 updates of a fresh entry stay at
or below max(0, 10 + 0.9·0) = 10. -/
theorem update_q_unclamped_bounded_witness :
    ((iterate_update .beginner 0 .easy 10 1 (1/10) (9/10) 3 QTable.empty) 0 .easy).getD 0
      ≤ max ((QTable.empty 0 .easy).getD 0)
          (10 + (9/10) * max_next_q_code .beginner QTable.empty (some 1)) :=
  update_q_unclamped_bounded .beginner 0 .easy 10 1 (1/10) (9/10)
    (by norm_num) (by norm_num) (by norm_num) 3 QTable.empty

end Gamify
